import Mathlib

/-!
Verification of the soci-snapshotter registry HTTP access layer.

A shallow embedding of the core of the ranged-fetch pipeline:

* `util/http/auth.go` — `ShouldAuthenticate`, `AuthClient.Do`,
  `dockerAuthHandler.HandleChallenge`, `newContextWithScope`;
* `fs/remote/resolver.go` — `httpFetcher.fetch`, `refreshURL`, `genID`;
* the retrying transport helpers — `handleHTTPError`, `jitter`,
  `backoffStrategy`;
* the registry host resolvers — `RegistryManager.ConfigureRegistries`
  (service/resolver/registry.go) and `RegistryManager.AsRegistryHosts`.

Effectful collaborators (the wire, the authorizer, the random source) are
passed in as explicit function arguments, so the control flow of each Go
function is a pure Lean function over them.  Go `int64` values are `Int`,
statuses are `Nat`, strings are `String`.
-/

set_option autoImplicit false

/-! ## HTTP responses as the auth layer sees them (util/http/auth.go)

The body of a response is read at most once by `ShouldAuthenticate` and then
restored; what matters to the control flow is only how the bytes parse.  So a
response carries the outcome of `io.ReadAll` and of the two attempted
decodings (`json.Unmarshal` into `docker.Errors`, `xml.Unmarshal` into the S3
error element) instead of raw bytes. -/

/-- One element of a decoded `docker.Errors` list: a value that type-asserts
to `docker.Error` (only its `Message` field is inspected) or any other
error value. -/
inductive DockerErrorItem where
  | dockerError (message : String)
  | otherError
deriving DecidableEq

/-- The anonymous struct `ShouldAuthenticate` decodes an S3 XML error body
into: `Code`, `Message`, `Resource`, `RequestId`. -/
structure S3ErrorBody where
  code : String
  message : String
  resource : String
  requestID : String
deriving DecidableEq

/-- An HTTP response, with its body abstracted to its parse outcomes.
`bodyReadErr` models `io.ReadAll(resp.Body)` failing; `bodyAsDockerErrors`
is `some errs` iff `json.Unmarshal` into `docker.Errors` succeeds;
`bodyAsS3Error` is `some s3` iff `xml.Unmarshal` into the S3 `Error`
element succeeds. -/
structure Response where
  statusCode : Nat
  status : String
  contentType : String
  bodyReadErr : Bool
  bodyAsDockerErrors : Option (List DockerErrorItem)
  bodyAsS3Error : Option S3ErrorBody
deriving DecidableEq

/-- Modelled from the spec: the ECR sentinel message (the constant lives in
`util/http`, outside the staged files): the `message` that marks a 403 as
token expiry. -/
def ECRTokenExpiredResponseMessage : String :=
  "Your authorization token has expired. Reauthenticate and try again."

/-- Modelled from the spec: the S3 error `Code` marking an expired
pre-signed URL (the constant lives in `util/http`, outside the staged
files). -/
def S3TokenExpiredResponseCode : String := "ExpiredToken"

/-- `ShouldAuthenticate` (util/http/auth.go).  Returns the boolean the Go
function returns, paired with the response as the call leaves it (the S3
400 branch rewrites `Status`/`StatusCode` in place). -/
def ShouldAuthenticate (resp : Response) : Bool × Response :=
  if resp.statusCode = 401 then
    (true, resp)
  else if resp.statusCode = 403 then
    -- body, err := io.ReadAll(resp.Body); body restored afterwards
    if resp.bodyReadErr then (false, resp)
    else
      match resp.bodyAsDockerErrors with
      | none => (false, resp)
      | some errs =>
        (errs.any fun e =>
          match e with
          | .dockerError m => m = ECRTokenExpiredResponseMessage
          | .otherError => false,
         resp)
  else if resp.statusCode = 400 then
    if resp.contentType = "application/xml" then
      if resp.bodyReadErr then (false, resp)
      else
        match resp.bodyAsS3Error with
        | none => (false, resp)
        | some s3 =>
          if s3.code = S3TokenExpiredResponseCode then
            (false, { resp with status := "401 Unauthorized", statusCode := 401 })
          else (false, resp)
    else (false, resp)
  else (false, resp)

/-- The claim's authentication condition, written from its words: some
decoded docker error item's message equals the ECR sentinel. -/
def isECRExpiredBody (resp : Response) : Bool :=
  !resp.bodyReadErr &&
    match resp.bodyAsDockerErrors with
    | some errs =>
      errs.any fun e =>
        match e with
        | .dockerError m => m = ECRTokenExpiredResponseMessage
        | .otherError => false
    | none => false

/-- The claim's S3 rewrite condition, written from its words: a 400 response
with Content-Type `application/xml` whose body parses as an S3 Error element
with Code `ExpiredToken`. -/
def isS3ExpiredTokenResponse (resp : Response) : Bool :=
  resp.statusCode = 400 && resp.contentType = "application/xml" &&
    !resp.bodyReadErr &&
    match resp.bodyAsS3Error with
    | some s3 => s3.code = S3TokenExpiredResponseCode
    | none => false

/-- C1: `ShouldAuthenticate` returns true iff the status is 401, or it is 403
with a body decoding to docker error items one of whose message is the ECR
expiry sentinel; on a 400 `application/xml` S3 `ExpiredToken` body it returns
false but rewrites the response status in place to `401 Unauthorized`; in
every other case it returns false and leaves the response unchanged. -/
theorem c1_shouldAuthenticate_spec (resp : Response) :
    ((ShouldAuthenticate resp).1 = true ↔
      (resp.statusCode = 401 ∨
        (resp.statusCode = 403 ∧ isECRExpiredBody resp = true))) ∧
    (ShouldAuthenticate resp).2 =
      (if isS3ExpiredTokenResponse resp then
        { resp with status := "401 Unauthorized", statusCode := 401 }
      else resp) := by
  obtain ⟨sc, st, ct, brE, bde, bs3⟩ := resp
  simp only [ShouldAuthenticate, isECRExpiredBody, isS3ExpiredTokenResponse]
  by_cases h401 : sc = 401 <;> by_cases h403 : sc = 403 <;>
    by_cases h400 : sc = 400 <;>
      simp_all <;>
        cases brE <;> simp_all <;>
          first
          | (cases bde <;> simp_all)
          | (by_cases hct : ct = "application/xml" <;> simp_all <;>
              cases bs3 <;> simp_all <;>
                rename_i s3 <;>
                  by_cases hcode : s3.code = S3TokenExpiredResponseCode <;> simp_all)

/-! ## The Docker auth handler (util/http/auth.go, `dockerAuthHandler`)

The underlying `docker.Authorizer` is external; its `AddResponses` method is
passed in as a function from the argument list to `none` (success) or
`some err`.  The model returns, besides the Go result, the list of argument
lists `AddResponses` was called with, in order. -/

/-- `dockerAuthHandler.HandleChallenge`: call `AddResponses` with the
response twice (to invalidate the cached token), and, only when that
succeeds, once more with the single response (to fetch a new one). -/
def dockerHandleChallenge (addResponses : List Response → Option String)
    (resp : Response) : Option String × List (List Response) :=
  match addResponses [resp, resp] with
  | some e => (some e, [[resp, resp]])
  | none => (addResponses [resp], [[resp, resp], [resp]])

/-- C4: `HandleChallenge` calls the authorizer's `AddResponses` exactly
twice — first with the response duplicated, then with the single response —
and an error from the first call is returned and prevents the second. -/
theorem c4_handleChallenge_two_calls (addResponses : List Response → Option String)
    (resp : Response) :
    (addResponses [resp, resp] = none →
      (dockerHandleChallenge addResponses resp).2 = [[resp, resp], [resp]] ∧
      (dockerHandleChallenge addResponses resp).1 = addResponses [resp]) ∧
    (∀ e, addResponses [resp, resp] = some e →
      (dockerHandleChallenge addResponses resp).2 = [[resp, resp]] ∧
      (dockerHandleChallenge addResponses resp).1 = some e) := by
  constructor
  · intro h
    simp [dockerHandleChallenge, h]
  · intro e h
    simp [dockerHandleChallenge, h]

/-! ## The auth client (util/http/auth.go, `AuthClient.Do`)

Contexts carry containerd token scopes.  `docker.GetTokenScopes(ctx, [])`
and `docker.WithScope` are external; they are modelled as reading and
appending the scope list of the context. -/

/-- A request context, reduced to the token scopes it carries. -/
structure GoContext where
  scopes : List String
deriving DecidableEq

/-- `docker.GetTokenScopes(ctx, []string{})`, modelled as the scopes stored
in the context. -/
def getTokenScopes (ctx : GoContext) : List String := ctx.scopes

/-- `newContextWithScope` (util/http/auth.go): a fresh background context
carrying the single scope `strings.Join(scopes, "")` — the original
context's scopes concatenated with the empty separator. -/
def newContextWithScope (ctx : GoContext) : GoContext :=
  ⟨[String.join (getTokenScopes ctx)]⟩

/-- An outgoing HTTP request: its context, target URL and headers. -/
structure Request where
  ctx : GoContext
  url : String
  headers : List (String × String)
deriving DecidableEq

/-- `http.Header.Set`: replace the values of key `k` by `v`, appending the
pair when the key is absent. -/
def setHeader (hs : List (String × String)) (k v : String) :
    List (String × String) :=
  if hs.any fun p => p.1 = k then
    hs.map fun p => if p.1 = k then (k, v) else p
  else hs ++ [(k, v)]

/-- The loop `for k := range ac.headers { req.Header.Set(k, ac.headers.Get(k)) }`. -/
def attachHeaders (globalHeaders : List (String × String)) (req : Request) :
    Request :=
  { req with
    headers := globalHeaders.foldl (fun hs kv => setHeader hs kv.1 kv.2) req.headers }

/-- The errors `AuthClient.Do` can surface. -/
inductive DoError where
  | failedToAuthorizeRequest (e : String)
  | sendFailed (e : String)
  | failedToHandleChallenge (e : String)
deriving DecidableEq

/-- The effectful collaborators of `AuthClient.Do`: the handler's
`AuthorizeRequest` and `HandleChallenge`, the inner retryable client's
`Do` (composed with `rhttp.FromRequest`), the auth policy, and the
client's global headers. -/
structure AuthEnv where
  authorize : GoContext → Request → Except String Request
  send : Request → Except String Response
  handleChallenge : GoContext → Response → Option String
  policy : Response → Bool
  headers : List (String × String)

/-- The `roundTrip` closure inside `AuthClient.Do`: attach the global
headers, authorize, convert and send.  Besides the Go result it returns
the list of requests handed to the inner client (empty or a singleton). -/
def authRoundTrip (env : AuthEnv) (ctx : GoContext) (req : Request) :
    Except DoError Response × List Request :=
  let req := attachHeaders env.headers req
  match env.authorize ctx req with
  | .error e => (.error (.failedToAuthorizeRequest e), [])
  | .ok authReq =>
    match env.send authReq with
    | .error e => (.error (.sendFailed e), [authReq])
    | .ok resp => (.ok resp, [authReq])

/-- One round trip hands the inner client at most one request. -/
theorem authRoundTrip_sent_le_one (env : AuthEnv) (ctx : GoContext)
    (req : Request) : (authRoundTrip env ctx req).2.length ≤ 1 := by
  simp only [authRoundTrip]
  cases env.authorize ctx (attachHeaders env.headers req) with
  | error e => simp
  | ok ar => cases h : env.send ar <;> simp [h]

/-- The observable effects of one `AuthClient.Do` call: the requests the
inner client sent, the number of `HandleChallenge` invocations, and the
number of `Drain(resp.Body)` calls. -/
structure DoTrace where
  sent : List Request
  challenges : Nat
  drains : Nat
deriving DecidableEq

/-- `AuthClient.Do`: send; if the policy deems the response warrants
authentication, handle the challenge, drain the first body, and resend the
request cloned with `newContextWithScope` of the original context, exactly
once, without re-applying the policy. -/
def authClientDo (env : AuthEnv) (req : Request) :
    Except DoError Response × DoTrace :=
  let ctx := req.ctx
  match authRoundTrip env ctx req with
  | (.error e, s) => (.error e, ⟨s, 0, 0⟩)
  | (.ok resp, s1) =>
    if env.policy resp then
      match env.handleChallenge ctx resp with
      | some e => (.error (.failedToHandleChallenge e), ⟨s1, 1, 0⟩)
      | none =>
        -- Drain(resp.Body); return roundTrip(req.Clone(newContextWithScope(ctx)))
        let out := authRoundTrip env ctx { req with ctx := newContextWithScope ctx }
        (out.1, ⟨s1 ++ out.2, 1, 1⟩)
    else (.ok resp, ⟨s1, 0, 0⟩)

/-- C2: if the first response trips the auth policy, `Do` invokes
`HandleChallenge` once and — when that succeeds — drains the body and
re-sends exactly once, under a fresh context whose one scope is the join of
the original context's scopes; the result is the second round trip's
outcome regardless of its status.  If the policy returns false the first
response is returned unchanged with no challenge handling.  At most two
requests ever reach the inner client. -/
theorem c2_authClientDo_resend_once (env : AuthEnv) (req : Request)
    (resp1 : Response)
    (hok : authRoundTrip env req.ctx req =
      (.ok resp1, [attachHeaders env.headers req])) :
    (env.policy resp1 = false →
      authClientDo env req = (.ok resp1, ⟨[attachHeaders env.headers req], 0, 0⟩)) ∧
    (env.policy resp1 = true →
      (authClientDo env req).2.challenges = 1 ∧
      (env.handleChallenge req.ctx resp1 = none →
        (authClientDo env req).1 =
          (authRoundTrip env req.ctx
            { req with ctx := ⟨[String.join req.ctx.scopes]⟩ }).1 ∧
        (authClientDo env req).2.drains = 1 ∧
        (authClientDo env req).2.sent =
          attachHeaders env.headers req ::
            (authRoundTrip env req.ctx
              { req with ctx := ⟨[String.join req.ctx.scopes]⟩ }).2) ∧
      (∀ e, env.handleChallenge req.ctx resp1 = some e →
        authClientDo env req =
          (.error (.failedToHandleChallenge e),
            ⟨[attachHeaders env.headers req], 1, 0⟩))) ∧
    (authClientDo env req).2.sent.length ≤ 2 := by
  refine ⟨?_, ?_, ?_⟩
  · intro hp
    simp [authClientDo, hok, hp]
  · intro hp
    refine ⟨?_, ?_, ?_⟩
    · simp only [authClientDo, hok, hp, if_true]
      cases h : env.handleChallenge req.ctx resp1 <;> simp
    · intro hch
      simp [authClientDo, hok, hp, hch, newContextWithScope, getTokenScopes]
    · intro e hch
      simp [authClientDo, hok, hp, hch]
  · simp only [authClientDo, hok]
    cases hp : env.policy resp1
    · simp
    · simp only [if_true]
      cases hch : env.handleChallenge req.ctx resp1
      · have hle := authRoundTrip_sent_le_one env req.ctx
          { req with ctx := newContextWithScope req.ctx }
        simpa using hle
      · simp

/-- A concrete 401 response used to instantiate C2. -/
def c2RespW : Response :=
  { statusCode := 401, status := "401 Unauthorized", contentType := ""
    bodyReadErr := false, bodyAsDockerErrors := none, bodyAsS3Error := none }

/-- A concrete environment whose first response trips the default policy. -/
def c2EnvW : AuthEnv :=
  { authorize := fun _ r => .ok r
    send := fun _ => .ok c2RespW
    handleChallenge := fun _ _ => none
    policy := fun r => r.statusCode == 401
    headers := [] }

/-- A concrete request carrying one token scope. -/
def c2ReqW : Request :=
  { ctx := ⟨["repository:library/hello:pull"]⟩
    url := "https://reg.example/v2/library/hello/blobs/sha256:aa", headers := [] }

/-- C2 witness: the hypotheses hold at a concrete client and request, and
there `Do` invokes `HandleChallenge` exactly once. -/
theorem c2_authClientDo_resend_once_witness :
    (authClientDo c2EnvW c2ReqW).2.challenges = 1 :=
  ((c2_authClientDo_resend_once c2EnvW c2ReqW c2RespW rfl).2.1 rfl).1

/-! ## Byte regions and the blob fetcher (fs/remote/resolver.go)

A `region` is an inclusive byte interval.  `regionSet.add` and
`superRegion` live in a sibling file of the repository that is not among
the staged sources, so they are modelled from the spec: a region set is a
deduplicated, coalesced list of regions (overlapping or adjacent regions
merged), kept sorted by begin and pairwise disjoint, whose union equals
the union of the inputs; the super-region spans min-begin to max-end. -/

/-- A byte region `{b, e}` of a blob, both ends inclusive (`int64` in Go). -/
structure Region where
  b : Int
  e : Int
deriving DecidableEq

/-- Modelled from the spec: insert one region into a sorted, coalesced
region list, merging it with every region it overlaps or touches
(`regionSet.add`). -/
def regionMerge (r : Region) : List Region → List Region
  | [] => [r]
  | l :: rest =>
    if r.e + 1 < l.b then r :: l :: rest
    else if l.e + 1 < r.b then l :: regionMerge r rest
    else regionMerge ⟨min r.b l.b, max r.e l.e⟩ rest

/-- The loop `var s regionSet; for _, reg := range rs { s.add(reg) }`. -/
def coalesce (rs : List Region) : List Region :=
  rs.foldl (fun acc r => regionMerge r acc) []

/-- Modelled from the spec: `superRegion` compresses a non-empty region
list to one region spanning its min-begin through its max-end. -/
def superRegion : List Region → Region
  | [] => ⟨0, 0⟩
  | r :: rest =>
    ⟨rest.foldl (fun acc x => min acc x.b) r.b,
     rest.foldl (fun acc x => max acc x.e) r.e⟩

/-- The request `httpFetcher.fetch` builds: the snapshotted blob URL and
the value of its single `Range` header. -/
structure FetchRequest where
  url : String
  rangeHeader : String
deriving DecidableEq

/-- A response as `fetch` consumes it: status plus the three headers it
reads. -/
structure FetchResponse where
  statusCode : Nat
  status : String
  contentLength : String
  contentType : String
  contentRange : String
deriving DecidableEq

/-- The collaborators of `fetch`: the authenticated client's `Do`
(`send`), the redirect probe `redirect(ctx, url, client)` keyed by the URL
it probes, and the stdlib parsers `strconv.ParseInt` (base 10, 64 bit),
`mime.ParseMediaType` (media type and `boundary` parameter) and the
`Content-Range` regex helper `parseRange` (region and blob size), all
abstracted to their outcomes. -/
structure FetchEnv where
  send : FetchRequest → Except String FetchResponse
  redirect : String → Except String String
  parseInt64 : String → Except String Int
  parseMediaType : String → Except String (String × String)
  parseContentRange : String → Except String (Region × Int)

/-- What a successful `fetch` yields: a single-part reader over one region
(status 200 or single-range 206) or a multipart reader with its boundary
(206 with a `multipart/` media type). -/
inductive FetchResult where
  | singlePart (reg : Region) (res : FetchResponse)
  | multiPart (res : FetchResponse) (boundary : String)
deriving DecidableEq

/-- The error cases of `fetch`. -/
inductive FetchErr where
  | noRegion
  | requestFailed (e : String)
  | cannotParseContentLength (e : String)
  | cannotParseContentType (e : String)
  | cannotParseContentRange (e : String)
  | failedToRefreshURL (status : String) (e : String)
  | unexpectedStatusCode (status : String)
deriving DecidableEq

/-- The mutable fields of an `httpFetcher` that `fetch` reads or writes:
`realBlobURL` (refreshed on 401/403) and the sticky `singleRange` flag,
plus the immutable `baseBlobURL` the refresh probes. -/
structure HTTPFetcher where
  baseBlobURL : String
  realBlobURL : String
  singleRange : Bool
deriving DecidableEq

/-- The observable effects of one `fetch` call: every request sent, and
how many times `refreshURL` ran the redirect probe. -/
structure FetchTrace where
  sent : List FetchRequest
  refreshes : Nat
deriving DecidableEq

/-- The `Range` header value `fetch` builds: `bytes=` followed by
`b-e,` per requested region with the last byte — the trailing comma —
sliced off (`ranges[:len(ranges)-1]`). -/
def rangeValue (requests : List Region) : String :=
  let ranges :=
    String.join (requests.map fun reg => toString reg.b ++ "-" ++ toString reg.e ++ ",")
  "bytes=" ++ String.mk ranges.data.dropLast

/-- The regions one `fetch` call requests: the coalesced input, compressed
to the super-region in single-range mode. -/
def fetchRequests (f : HTTPFetcher) (rs : List Region) : List Region :=
  if f.singleRange then [superRegion (coalesce rs)] else coalesce rs

/-- The first wire request of a `fetch` call. -/
def firstFetchRequest (f : HTTPFetcher) (rs : List Region) : FetchRequest :=
  ⟨f.realBlobURL, rangeValue (fetchRequests f rs)⟩

/-- `httpFetcher.fetch` with `retry = false`: one attempt.  With retry
exhausted, the 401/403 and 400 cases take no action and fall through the
`switch` to the shared `ErrUnexpectedStatusCode` failure, exactly like any
other non-200/206 status.  Returns the Go result, the fetcher (unchanged),
and the trace of requests sent (`refreshURL` never runs here). -/
def fetchNoRetry (env : FetchEnv) (f : HTTPFetcher) (rs : List Region) :
    Except FetchErr FetchResult × HTTPFetcher × FetchTrace :=
  if rs.isEmpty then (.error .noRegion, f, ⟨[], 0⟩)
  else
    let singleRangeMode := f.singleRange
    let requests := if singleRangeMode then [superRegion (coalesce rs)] else coalesce rs
    let req : FetchRequest := ⟨f.realBlobURL, rangeValue requests⟩
    match env.send req with
    | .error e => (.error (.requestFailed e), f, ⟨[req], 0⟩)
    | .ok res =>
      if res.statusCode = 200 then
        match env.parseInt64 res.contentLength with
        | .error e => (.error (.cannotParseContentLength e), f, ⟨[req], 0⟩)
        | .ok size => (.ok (.singlePart ⟨0, size - 1⟩ res), f, ⟨[req], 0⟩)
      else if res.statusCode = 206 then
        match env.parseMediaType res.contentType with
        | .error e => (.error (.cannotParseContentType e), f, ⟨[req], 0⟩)
        | .ok (mediaType, boundary) =>
          if mediaType.startsWith "multipart/" then
            (.ok (.multiPart res boundary), f, ⟨[req], 0⟩)
          else
            match env.parseContentRange res.contentRange with
            | .error e => (.error (.cannotParseContentRange e), f, ⟨[req], 0⟩)
            | .ok (reg, _) => (.ok (.singlePart reg res), f, ⟨[req], 0⟩)
      else (.error (.unexpectedStatusCode res.status), f, ⟨[req], 0⟩)

/-- `httpFetcher.fetch`.  The 401/403 branch, when `retry` is set, runs
`refreshURL` (the redirect probe against `baseBlobURL`) and recurses once
with `retry=false` — the recursive call is written `fetchNoRetry`, which is
that instance; the 400 branch, when `retry` is set and single-range mode is
not, sets single-range mode and recurses once with `retry=false`; every
other non-200/206 case falls through to `ErrUnexpectedStatusCode`. -/
def fetch (env : FetchEnv) (f : HTTPFetcher) (rs : List Region) (retry : Bool) :
    Except FetchErr FetchResult × HTTPFetcher × FetchTrace :=
  if rs.isEmpty then (.error .noRegion, f, ⟨[], 0⟩)
  else
    let singleRangeMode := f.singleRange
    let requests := if singleRangeMode then [superRegion (coalesce rs)] else coalesce rs
    let req : FetchRequest := ⟨f.realBlobURL, rangeValue requests⟩
    match env.send req with
    | .error e => (.error (.requestFailed e), f, ⟨[req], 0⟩)
    | .ok res =>
      if res.statusCode = 200 then
        match env.parseInt64 res.contentLength with
        | .error e => (.error (.cannotParseContentLength e), f, ⟨[req], 0⟩)
        | .ok size => (.ok (.singlePart ⟨0, size - 1⟩ res), f, ⟨[req], 0⟩)
      else if res.statusCode = 206 then
        match env.parseMediaType res.contentType with
        | .error e => (.error (.cannotParseContentType e), f, ⟨[req], 0⟩)
        | .ok (mediaType, boundary) =>
          if mediaType.startsWith "multipart/" then
            (.ok (.multiPart res boundary), f, ⟨[req], 0⟩)
          else
            match env.parseContentRange res.contentRange with
            | .error e => (.error (.cannotParseContentRange e), f, ⟨[req], 0⟩)
            | .ok (reg, _) => (.ok (.singlePart reg res), f, ⟨[req], 0⟩)
      else if res.statusCode = 401 ∨ res.statusCode = 403 then
        if retry then
          match env.redirect f.baseBlobURL with
          | .error e => (.error (.failedToRefreshURL res.status e), f, ⟨[req], 1⟩)
          | .ok newURL =>
            let out := fetchNoRetry env { f with realBlobURL := newURL } rs
            (out.1, out.2.1, ⟨req :: out.2.2.sent, 1 + out.2.2.refreshes⟩)
        else (.error (.unexpectedStatusCode res.status), f, ⟨[req], 0⟩)
      else if res.statusCode = 400 then
        if retry && !singleRangeMode then
          let out := fetchNoRetry env { f with singleRange := true } rs
          (out.1, out.2.1, ⟨req :: out.2.2.sent, out.2.2.refreshes⟩)
        else (.error (.unexpectedStatusCode res.status), f, ⟨[req], 0⟩)
      else (.error (.unexpectedStatusCode res.status), f, ⟨[req], 0⟩)

/-- A `fetch` whose retry budget is spent is exactly one `fetchNoRetry`
attempt: with `retry=false` the 401/403/400 retry guards are dead and the
`switch` collapses to the retry-exhausted instance. -/
theorem fetch_false_eq_fetchNoRetry (env : FetchEnv) (f : HTTPFetcher)
    (rs : List Region) : fetch env f rs false = fetchNoRetry env f rs := by
  unfold fetch fetchNoRetry
  by_cases he : rs.isEmpty <;> simp only [he, if_true, if_false]
  cases env.send ⟨f.realBlobURL, rangeValue
      (if f.singleRange then [superRegion (coalesce rs)] else coalesce rs)⟩ with
  | error e => rfl
  | ok res =>
    by_cases h200 : res.statusCode = 200 <;> simp only [h200, if_true, if_false]
    by_cases h206 : res.statusCode = 206 <;> simp only [h206, if_true, if_false]
    by_cases hauth : res.statusCode = 401 ∨ res.statusCode = 403 <;>
      simp only [hauth, if_true, if_false, Bool.false_and, Bool.and_eq_true] <;>
        by_cases h400 : res.statusCode = 400 <;> simp [h400]

/-- C10: a `fetch` with an empty region slice returns `ErrNoRegion` at
once — no request is sent, no refresh happens, the fetcher is untouched —
whatever the retry flag and single-range mode. -/
theorem c10_fetch_empty_regions (env : FetchEnv) (f : HTTPFetcher)
    (retry : Bool) :
    fetch env f [] retry = (.error .noRegion, f, ⟨[], 0⟩) := by
  unfold fetch
  simp

/-- One retry-exhausted attempt never mutates the fetcher, never refreshes
the URL, and sends at most one request. -/
theorem fetchNoRetry_trace (env : FetchEnv) (f : HTTPFetcher)
    (rs : List Region) :
    (fetchNoRetry env f rs).2.1 = f ∧
    (fetchNoRetry env f rs).2.2.refreshes = 0 ∧
    (fetchNoRetry env f rs).2.2.sent.length ≤ 1 := by
  simp only [fetchNoRetry]
  refine ⟨?_, ?_, ?_⟩ <;> (repeat' split) <;> simp_all

/-- A retry-exhausted attempt never refreshes the URL. -/
theorem fetchNoRetry_refreshes (env : FetchEnv) (f : HTTPFetcher)
    (rs : List Region) : (fetchNoRetry env f rs).2.2.refreshes = 0 :=
  (fetchNoRetry_trace env f rs).2.1

/-- A retry-exhausted attempt sends at most one request. -/
theorem fetchNoRetry_sent_le (env : FetchEnv) (f : HTTPFetcher)
    (rs : List Region) : (fetchNoRetry env f rs).2.2.sent.length ≤ 1 :=
  (fetchNoRetry_trace env f rs).2.2

/-- A `fetch` call, whatever its arguments, performs at most one URL
refresh and sends at most two wire requests: it never loops. -/
theorem fetch_bounds (env : FetchEnv) (f : HTTPFetcher) (rs : List Region)
    (retry : Bool) :
    (fetch env f rs retry).2.2.refreshes ≤ 1 ∧
    (fetch env f rs retry).2.2.sent.length ≤ 2 := by
  cases retry with
  | false =>
    rw [fetch_false_eq_fetchNoRetry]
    obtain ⟨-, hr, hs⟩ := fetchNoRetry_trace env f rs
    exact ⟨by omega, by omega⟩
  | true =>
    simp only [fetch]
    (repeat' split) <;> simp [fetchNoRetry_refreshes, fetchNoRetry_sent_le]

/-- C3: on a 401/403 first response with retry available, `fetch` performs
exactly one `refreshURL` probe and recurses exactly once with
`retry=false` (= `fetchNoRetry`); on a 400 first response with retry
available and single-range mode unset, it sets single-range mode and
recurses exactly once with `retry=false`; every other non-200/206 case —
any status outside {401, 403, 400} with retry available, any of them with
the retry budget spent, and a 400 with retry available but single-range
mode already set — fails with the unexpected-status error; and a `fetch`
call never performs more
than one URL refresh or sends more than two requests, so it never
loops. -/
theorem c3_fetch_retry_once (env : FetchEnv) (f : HTTPFetcher)
    (rs : List Region) (res : FetchResponse)
    (hne : rs ≠ [])
    (hres : env.send (firstFetchRequest f rs) = .ok res) :
    ((res.statusCode = 401 ∨ res.statusCode = 403) →
      (fetch env f rs true).2.2.refreshes = 1 ∧
      (∀ newURL, env.redirect f.baseBlobURL = .ok newURL →
        fetch env f rs true =
          ((fetchNoRetry env { f with realBlobURL := newURL } rs).1,
           (fetchNoRetry env { f with realBlobURL := newURL } rs).2.1,
           ⟨firstFetchRequest f rs ::
              (fetchNoRetry env { f with realBlobURL := newURL } rs).2.2.sent,
            1⟩)) ∧
      (∀ e, env.redirect f.baseBlobURL = .error e →
        fetch env f rs true =
          (.error (.failedToRefreshURL res.status e), f,
            ⟨[firstFetchRequest f rs], 1⟩))) ∧
    (res.statusCode = 400 → f.singleRange = false →
      fetch env f rs true =
        ((fetchNoRetry env { f with singleRange := true } rs).1,
         (fetchNoRetry env { f with singleRange := true } rs).2.1,
         ⟨firstFetchRequest f rs ::
            (fetchNoRetry env { f with singleRange := true } rs).2.2.sent,
          0⟩)) ∧
    (res.statusCode ≠ 200 → res.statusCode ≠ 206 →
      fetch env f rs false =
        (.error (.unexpectedStatusCode res.status), f,
          ⟨[firstFetchRequest f rs], 0⟩)) ∧
    (res.statusCode ≠ 200 → res.statusCode ≠ 206 → res.statusCode ≠ 401 →
      res.statusCode ≠ 403 → res.statusCode ≠ 400 →
      fetch env f rs true =
        (.error (.unexpectedStatusCode res.status), f,
          ⟨[firstFetchRequest f rs], 0⟩)) ∧
    (res.statusCode = 400 → f.singleRange = true →
      fetch env f rs true =
        (.error (.unexpectedStatusCode res.status), f,
          ⟨[firstFetchRequest f rs], 0⟩)) ∧
    (∀ retry, (fetch env f rs retry).2.2.refreshes ≤ 1 ∧
      (fetch env f rs retry).2.2.sent.length ≤ 2) := by
  cases rs with
  | nil => exact absurd rfl hne
  | cons r0 rs' =>
    simp only [firstFetchRequest, fetchRequests] at hres
    refine ⟨?_, ?_, ?_, ?_, ?_, ?_⟩
    · intro h
      refine ⟨?_, ?_, ?_⟩
      · rcases h with h | h <;>
          · simp only [fetch]
            simp only [List.isEmpty_cons, Bool.false_eq_true, if_false, hres]
            simp only [h]
            cases hred : env.redirect f.baseBlobURL <;>
              simp [hred, fetchNoRetry_refreshes]
      · intro newURL hnew
        rcases h with h | h <;>
          · simp only [fetch]
            simp only [List.isEmpty_cons, Bool.false_eq_true, if_false, hres]
            simp only [h]
            simp [hnew, firstFetchRequest, fetchRequests, fetchNoRetry_refreshes]
      · intro e hnew
        rcases h with h | h <;>
          · simp only [fetch]
            simp only [List.isEmpty_cons, Bool.false_eq_true, if_false, hres]
            simp only [h]
            simp [hnew, firstFetchRequest, fetchRequests]
    · intro h hsr
      simp only [fetch]
      simp only [List.isEmpty_cons, Bool.false_eq_true, if_false, hres]
      simp only [h, hsr]
      simp [firstFetchRequest, fetchRequests, hsr, fetchNoRetry_refreshes]
    · intro h200 h206
      rw [fetch_false_eq_fetchNoRetry]
      simp only [fetchNoRetry]
      simp only [List.isEmpty_cons, Bool.false_eq_true, if_false, hres]
      simp [h200, h206, firstFetchRequest, fetchRequests]
    · intro h200 h206 h401 h403 h400
      simp only [fetch]
      simp only [List.isEmpty_cons, Bool.false_eq_true, if_false, hres]
      simp [h200, h206, h401, h403, h400, firstFetchRequest, fetchRequests]
    · intro h hsr
      simp only [fetch]
      simp only [List.isEmpty_cons, Bool.false_eq_true, if_false, hres]
      simp only [h, hsr]
      simp [firstFetchRequest, fetchRequests, hsr]
    · exact fun retry => fetch_bounds env f (r0 :: rs') retry

/-- The C3 witness environment: every request draws a 401, and the refresh
probe yields a fresh signed URL. -/
def c3EnvW : FetchEnv :=
  { send := fun _ => .ok ⟨401, "401 Unauthorized", "", "", ""⟩
    redirect := fun _ => .ok "https://backend.example/blob?sig=new"
    parseInt64 := fun _ => .error "no parse"
    parseMediaType := fun _ => .error "no parse"
    parseContentRange := fun _ => .error "no parse" }

/-- The C3 witness fetcher, in multi-range mode. -/
def c3FW : HTTPFetcher :=
  { baseBlobURL := "https://reg.example/v2/repo/blobs/sha256:aa"
    realBlobURL := "https://backend.example/blob?sig=old"
    singleRange := false }

/-- C3 witness: at a concrete fetcher whose first response is a 401, a
retrying `fetch` refreshes the URL exactly once. -/
theorem c3_fetch_retry_once_witness :
    (fetch c3EnvW c3FW [⟨0, 9⟩] true).2.2.refreshes = 1 :=
  ((c3_fetch_retry_once c3EnvW c3FW [⟨0, 9⟩] ⟨401, "401 Unauthorized", "", "", ""⟩
      (by simp) rfl).1 (Or.inl rfl)).1

/-- Slicing the last byte off `s ++ ","` — a one-byte character — gives
back `s`. -/
theorem string_strip_last_comma (s : String) :
    String.mk (s ++ ",").data.dropLast = s := by
  cases s with
  | mk data =>
    rw [String.data_append]
    rw [show (",").data = [','] from rfl]
    rw [List.dropLast_concat]

/-- A single-region `Range` header: the trailing comma of `b-e,` is the
byte the Go code slices off. -/
theorem rangeValue_single (r : Region) :
    rangeValue [r] = "bytes=" ++ (toString r.b ++ "-" ++ toString r.e) := by
  have h1 : String.join [toString r.b ++ "-" ++ toString r.e ++ ","] =
      (toString r.b ++ "-" ++ toString r.e) ++ "," := by
    simp [String.join]
  unfold rangeValue
  simp only [List.map]
  rw [h1, string_strip_last_comma]

/-- `regionSet.add` never produces an empty set. -/
theorem regionMerge_ne_nil (r : Region) (l : List Region) :
    regionMerge r l ≠ [] := by
  induction l generalizing r with
  | nil => simp [regionMerge]
  | cons x xs ih =>
    simp only [regionMerge]
    split
    · simp
    · split
      · simp
      · exact ih _

theorem coalesce_foldl_ne_nil (l : List Region) (acc : List Region)
    (h : acc ≠ []) : l.foldl (fun a r => regionMerge r a) acc ≠ [] := by
  induction l generalizing acc with
  | nil => simpa
  | cons x xs ih => exact ih _ (regionMerge_ne_nil _ _)

/-- Coalescing a non-empty region list yields a non-empty set. -/
theorem coalesce_ne_nil {rs : List Region} (h : rs ≠ []) :
    coalesce rs ≠ [] := by
  cases rs with
  | nil => exact absurd rfl h
  | cons r0 rs' =>
    exact coalesce_foldl_ne_nil rs' (regionMerge r0 []) (regionMerge_ne_nil _ _)

theorem foldl_min_le_init (l : List Region) :
    ∀ a : Int, l.foldl (fun acc x => min acc x.b) a ≤ a := by
  induction l with
  | nil => simp
  | cons x xs ih =>
    intro a
    exact le_trans (ih (min a x.b)) (min_le_left _ _)

theorem foldl_min_le_mem (l : List Region) :
    ∀ a : Int, ∀ x ∈ l, l.foldl (fun acc y => min acc y.b) a ≤ x.b := by
  induction l with
  | nil => simp
  | cons y ys ih =>
    intro a x hx
    rcases List.mem_cons.mp hx with h | h
    · subst h
      exact le_trans (foldl_min_le_init ys (min a x.b)) (min_le_right _ _)
    · exact ih (min a y.b) x h

theorem foldl_min_eq_init_or_mem (l : List Region) :
    ∀ a : Int, l.foldl (fun acc x => min acc x.b) a = a ∨
      ∃ x ∈ l, l.foldl (fun acc y => min acc y.b) a = x.b := by
  induction l with
  | nil => simp
  | cons y ys ih =>
    intro a
    rcases ih (min a y.b) with h | ⟨x, hx, he⟩
    · rcases min_choice a y.b with hm | hm
      · exact Or.inl (by rw [List.foldl_cons, h, hm])
      · exact Or.inr ⟨y, List.mem_cons_self y ys, by rw [List.foldl_cons, h, hm]⟩
    · exact Or.inr ⟨x, List.mem_cons_of_mem y hx, he⟩

theorem foldl_max_init_le (l : List Region) :
    ∀ a : Int, a ≤ l.foldl (fun acc x => max acc x.e) a := by
  induction l with
  | nil => simp
  | cons x xs ih =>
    intro a
    exact le_trans (le_max_left _ _) (ih (max a x.e))

theorem foldl_max_mem_le (l : List Region) :
    ∀ a : Int, ∀ x ∈ l, x.e ≤ l.foldl (fun acc y => max acc y.e) a := by
  induction l with
  | nil => simp
  | cons y ys ih =>
    intro a x hx
    rcases List.mem_cons.mp hx with h | h
    · subst h
      exact le_trans (le_max_right _ _) (foldl_max_init_le ys (max a x.e))
    · exact ih (max a y.e) x h

theorem foldl_max_eq_init_or_mem (l : List Region) :
    ∀ a : Int, l.foldl (fun acc x => max acc x.e) a = a ∨
      ∃ x ∈ l, l.foldl (fun acc y => max acc y.e) a = x.e := by
  induction l with
  | nil => simp
  | cons y ys ih =>
    intro a
    rcases ih (max a y.e) with h | ⟨x, hx, he⟩
    · rcases max_choice a y.e with hm | hm
      · exact Or.inl (by rw [List.foldl_cons, h, hm])
      · exact Or.inr ⟨y, List.mem_cons_self y ys, by rw [List.foldl_cons, h, hm]⟩
    · exact Or.inr ⟨x, List.mem_cons_of_mem y hx, he⟩

/-- On a non-empty region set the super-region begins at the minimum begin
and ends at the maximum end: it bounds every member and attains both
bounds. -/
theorem superRegion_bounds (l : List Region) (hl : l ≠ []) :
    (∀ q ∈ l, (superRegion l).b ≤ q.b ∧ q.e ≤ (superRegion l).e) ∧
    (∃ q ∈ l, q.b = (superRegion l).b) ∧
    (∃ q ∈ l, q.e = (superRegion l).e) := by
  cases l with
  | nil => exact absurd rfl hl
  | cons r rest =>
    refine ⟨?_, ?_, ?_⟩
    · intro q hq
      rcases List.mem_cons.mp hq with h | h
      · subst h
        exact ⟨foldl_min_le_init rest q.b, foldl_max_init_le rest q.e⟩
      · exact ⟨foldl_min_le_mem rest r.b q h, foldl_max_mem_le rest r.e q h⟩
    · rcases foldl_min_eq_init_or_mem rest r.b with h | ⟨x, hx, he⟩
      · exact ⟨r, List.mem_cons_self r rest, h.symm⟩
      · exact ⟨x, List.mem_cons_of_mem r hx, he.symm⟩
    · rcases foldl_max_eq_init_or_mem rest r.e with h | ⟨x, hx, he⟩
      · exact ⟨r, List.mem_cons_self r rest, h.symm⟩
      · exact ⟨x, List.mem_cons_of_mem r hx, he.symm⟩

/-- In single-range mode every request a retry-exhausted attempt sends
carries the super-region header. -/
theorem fetchNoRetry_singleRange_headers (env : FetchEnv) (f : HTTPFetcher)
    (rs : List Region) (hs : f.singleRange = true) :
    ((fetchNoRetry env f rs).2.2.sent.all fun q =>
      q.rangeHeader == rangeValue [superRegion (coalesce rs)]) = true := by
  simp only [fetchNoRetry, hs]
  (repeat' split) <;> simp_all

/-- In single-range mode every request a `fetch` call sends — the retried
one included — carries the super-region header. -/
theorem fetch_singleRange_headers (env : FetchEnv) (f : HTTPFetcher)
    (rs : List Region) (retry : Bool) (hs : f.singleRange = true) :
    ((fetch env f rs retry).2.2.sent.all fun q =>
      q.rangeHeader == rangeValue [superRegion (coalesce rs)]) = true := by
  cases retry with
  | false =>
    rw [fetch_false_eq_fetchNoRetry]
    exact fetchNoRetry_singleRange_headers env f rs hs
  | true =>
    simp only [fetch, hs]
    (repeat' split) <;> simp_all [fetchNoRetry_singleRange_headers]

/-- C6: a `fetch` in single-range mode on a non-empty region list sends
every request with the one `Range` header `bytes=b-e`, a single range,
where `b`/`e` are the least begin and greatest end over the coalesced
input regions — the bounds the super-region attains. -/
theorem c6_single_range_header (env : FetchEnv) (f : HTTPFetcher)
    (rs : List Region) (retry : Bool)
    (hs : f.singleRange = true) (hne : rs ≠ []) :
    ((fetch env f rs retry).2.2.sent.all fun q =>
        q.rangeHeader ==
          "bytes=" ++ (toString (superRegion (coalesce rs)).b ++ "-" ++
            toString (superRegion (coalesce rs)).e)) = true ∧
    (∀ q ∈ coalesce rs, (superRegion (coalesce rs)).b ≤ q.b ∧
        q.e ≤ (superRegion (coalesce rs)).e) ∧
    (∃ q ∈ coalesce rs, q.b = (superRegion (coalesce rs)).b) ∧
    (∃ q ∈ coalesce rs, q.e = (superRegion (coalesce rs)).e) := by
  refine ⟨?_, superRegion_bounds (coalesce rs) (coalesce_ne_nil hne)⟩
  have h := fetch_singleRange_headers env f rs retry hs
  rwa [rangeValue_single] at h

/-- The C6 witness environment: a single-range 206 response. -/
def c6EnvW : FetchEnv :=
  { send := fun _ =>
      .ok ⟨206, "206 Partial Content", "", "application/octet-stream", "bytes 0-9/100"⟩
    redirect := fun _ => .error "unused"
    parseInt64 := fun _ => .error "unused"
    parseMediaType := fun _ => .ok ("application/octet-stream", "")
    parseContentRange := fun _ => .ok (⟨0, 9⟩, 100) }

/-- The C6 witness fetcher, already in single-range mode. -/
def c6FW : HTTPFetcher :=
  { baseBlobURL := "https://reg.example/v2/repo/blobs/sha256:bb"
    realBlobURL := "https://backend.example/blob?sig=s", singleRange := true }

/-- C6 witness: the hypotheses hold at a concrete single-range fetcher and
a two-region read, and every sent request carries the super-region
header. -/
theorem c6_single_range_header_witness :
    ((fetch c6EnvW c6FW [⟨5, 9⟩, ⟨0, 3⟩] true).2.2.sent.all fun q =>
        q.rangeHeader ==
          "bytes=" ++
            (toString (superRegion (coalesce [⟨5, 9⟩, ⟨0, 3⟩])).b ++ "-" ++
              toString (superRegion (coalesce [⟨5, 9⟩, ⟨0, 3⟩])).e)) = true :=
  (c6_single_range_header c6EnvW c6FW [⟨5, 9⟩, ⟨0, 3⟩] true rfl (by simp)).1

/-! ## `genID` and `refreshURL` (fs/remote/resolver.go)

`crypto/sha256` and the `%x` formatting of its digest are external; the
lowercase-hex digest function is abstracted as a parameter `sha256hex`. -/

/-- `httpFetcher.refreshURL`: re-run the redirect probe against
`baseBlobURL` and store the fresh backend URL in `realBlobURL`.  Neither
`baseBlobURL` nor `singleRange` changes. -/
def refreshURL (env : FetchEnv) (f : HTTPFetcher) : Except String HTTPFetcher :=
  match env.redirect f.baseBlobURL with
  | .error e => .error e
  | .ok newRealBlobURL => .ok { f with realBlobURL := newRealBlobURL }

/-- `httpFetcher.genID`: the digest of
`fmt.Sprintf("%s-%d-%d", f.baseBlobURL, reg.b, reg.e)`. -/
def genID (sha256hex : String → String) (f : HTTPFetcher) (reg : Region) :
    String :=
  sha256hex (f.baseBlobURL ++ "-" ++ toString reg.b ++ "-" ++ toString reg.e)

/-- C9: `genID` is the (lowercase-hex, abstracted) SHA-256 digest of
`"<baseBlobURL>-<begin>-<end>"`; it depends only on `baseBlobURL` and the
region — two fetchers sharing a base URL agree on it — and a successful
`refreshURL`, which rewrites only `realBlobURL`, leaves it unchanged. -/
theorem c9_genID_stable (sha256hex : String → String) (f : HTTPFetcher)
    (reg : Region) :
    genID sha256hex f reg =
      sha256hex (f.baseBlobURL ++ "-" ++ toString reg.b ++ "-" ++
        toString reg.e) ∧
    (∀ f' : HTTPFetcher, f'.baseBlobURL = f.baseBlobURL →
      genID sha256hex f' reg = genID sha256hex f reg) ∧
    (∀ env newF, refreshURL env f = .ok newF →
      newF.baseBlobURL = f.baseBlobURL ∧
      genID sha256hex newF reg = genID sha256hex f reg) := by
  refine ⟨rfl, ?_, ?_⟩
  · intro f' hb
    simp [genID, hb]
  · intro env newF h
    have hb : newF.baseBlobURL = f.baseBlobURL := by
      unfold refreshURL at h
      cases he : env.redirect f.baseBlobURL with
      | error e => rw [he] at h; cases h
      | ok u =>
        rw [he] at h
        cases h
        rfl
    exact ⟨hb, by simp [genID, hb]⟩

/-! ## The retrying transport's error handler (`handleHTTPError`)

URLs are modelled structurally — scheme, host, path, an ordered query
list, fragment — standing for a parsed `net/url.URL`; rendering stands
for `URL.String`/`URL.Redacted` (the model carries no userinfo, which is
all `Redacted` treats specially).  The redaction helpers of
`util/http/log` are not among the staged sources and are modelled from
the spec: every query-parameter value is replaced by the literal
`REDACTED`; scheme, host, path and fragment are preserved; the error
helper redacts the URL of any wrapped `url.Error`. -/

/-- A parsed URL. -/
structure URL where
  scheme : String
  host : String
  path : String
  query : List (String × String)
  fragment : String
deriving DecidableEq

/-- `URL.String()` on the model. -/
def URL.render (u : URL) : String :=
  u.scheme ++ "://" ++ u.host ++ u.path ++
    (if u.query.isEmpty then ""
     else "?" ++ String.intercalate "&"
       (u.query.map fun kv => kv.1 ++ "=" ++ kv.2)) ++
    (if u.fragment = "" then "" else "#" ++ u.fragment)

/-- Modelled from the spec: `RedactHTTPQueryValuesFromURL` (util/http/log,
not under the staged sources) replaces every query value with `REDACTED`,
preserving scheme, host, path and fragment. -/
def redactQueryValues (u : URL) : URL :=
  { u with query := u.query.map fun kv => (kv.1, "REDACTED") }

/-- A Go error as this layer sees it: a `*url.Error` (operation, parsed
URL, wrapped cause), a `fmt.Errorf` wrapper whose message was rendered at
construction, or a plain message. -/
inductive GoError where
  | urlError (op : String) (url : URL) (inner : GoError)
  | wrappedError (msg : String) (inner : GoError)
  | simpleError (msg : String)
deriving DecidableEq

/-- `err.Error()`: a `url.Error` renders `op "url": cause` from its
current fields. -/
def GoError.message : GoError → String
  | .urlError op u inner => op ++ " \"" ++ u.render ++ "\": " ++ inner.message
  | .wrappedError m _ => m
  | .simpleError m => m

/-- Modelled from the spec: `RedactHTTPQueryValuesFromError` redacts the
query values of the URL carried by any wrapped `url.Error`. -/
def redactError : GoError → GoError
  | .urlError op u inner => .urlError op (redactQueryValues u) (redactError inner)
  | .wrappedError m inner => .wrappedError m (redactError inner)
  | .simpleError m => .simpleError m

/-- The request data `handleHTTPError` reads off the failed response. -/
structure RequestInfo where
  method : String
  url : Option URL
deriving DecidableEq

/-- A response as `handleHTTPError` receives it (possibly nil, with a
possibly nil request). -/
structure ErrorHandlerResponse where
  request : Option RequestInfo
deriving DecidableEq

/-- The `method` local of `handleHTTPError`: `"unknown"` unless the
response carries a request. -/
def errMethod (resp : Option ErrorHandlerResponse) : String :=
  match resp with
  | none => "unknown"
  | some r =>
    match r.request with
    | none => "unknown"
    | some req => req.method

/-- The `url` local of `handleHTTPError`: the request URL redacted in
place and rendered, `"unknown"` when absent. -/
def errURL (resp : Option ErrorHandlerResponse) : String :=
  match resp with
  | none => "unknown"
  | some r =>
    match r.request with
    | none => "unknown"
    | some req =>
      match req.url with
      | none => "unknown"
      | some u => (redactQueryValues u).render

/-- `handleHTTPError` (the retrying client's ErrorHandler): drain the
body, redact the request URL and the underlying error, and give up with
`<METHOD> "<redacted-url>": giving up request after <n> attempt(s)[: <cause>]`. -/
def handleHTTPError (resp : Option ErrorHandlerResponse)
    (err : Option GoError) (attempts : Int) : GoError :=
  match err with
  | none =>
    .simpleError (errMethod resp ++ " \"" ++ errURL resp ++
      "\": giving up request after " ++ toString attempts ++ " attempt(s)")
  | some e =>
    let re := redactError e
    .wrappedError (errMethod resp ++ " \"" ++ errURL resp ++
      "\": giving up request after " ++ toString attempts ++ " attempt(s): " ++
      re.message) re

/-- Every query value of a URL equals `REDACTED`. -/
def URL.allRedacted (u : URL) : Bool :=
  u.query.all fun kv => kv.2 == "REDACTED"

/-- Every URL reachable in an error has only `REDACTED` query values. -/
def GoError.allRedacted : GoError → Bool
  | .urlError _ u inner => u.allRedacted && inner.allRedacted
  | .wrappedError _ inner => inner.allRedacted
  | .simpleError _ => true

theorem redactQueryValues_allRedacted (u : URL) :
    (redactQueryValues u).allRedacted = true := by
  simp [URL.allRedacted, redactQueryValues, List.all_eq_true]

theorem redactError_allRedacted (e : GoError) :
    (redactError e).allRedacted = true := by
  induction e with
  | urlError op u inner ih =>
    simp [redactError, GoError.allRedacted, redactQueryValues_allRedacted, ih]
  | wrappedError m inner ih => simp [redactError, GoError.allRedacted, ih]
  | simpleError m => simp [redactError, GoError.allRedacted]

/-- C5: the error `handleHTTPError` returns renders exactly as
`<METHOD> "<redacted-url>": giving up request after <n> attempt(s)` with
`: <cause>` appended iff there is an underlying error; the URL embedded
in it is the redacted render of the request URL, whose query values all
equal `REDACTED`; and the wrapped cause, when present, is the redacted
underlying error, every URL inside which has only `REDACTED` query
values. -/
theorem c5_handleHTTPError_redacts (resp : Option ErrorHandlerResponse)
    (err : Option GoError) (attempts : Int) :
    (handleHTTPError resp err attempts).message =
      errMethod resp ++ " \"" ++ errURL resp ++
        "\": giving up request after " ++ toString attempts ++
        " attempt(s)" ++
        (match err with
         | none => ""
         | some e => ": " ++ (redactError e).message) ∧
    (∀ r req u, resp = some r → r.request = some req → req.url = some u →
      errURL resp = (redactQueryValues u).render ∧
        (redactQueryValues u).allRedacted = true) ∧
    (∀ e, err = some e →
      handleHTTPError resp err attempts =
        .wrappedError (handleHTTPError resp err attempts).message
          (redactError e) ∧
        (redactError e).allRedacted = true) ∧
    (err = none →
      handleHTTPError resp err attempts =
        .simpleError (handleHTTPError resp err attempts).message) := by
  refine ⟨?_, ?_, ?_, ?_⟩
  · cases err with
    | none => simp [handleHTTPError, GoError.message]
    | some e =>
      simp only [handleHTTPError, GoError.message]
      simp only [String.append_assoc]
      rfl
  · intro r req u hr hreq hu
    subst hr
    simp [errURL, hreq, hu, redactQueryValues_allRedacted]
  · intro e he
    subst he
    exact ⟨rfl, redactError_allRedacted e⟩
  · intro he
    subst he
    rfl

/-! ## Jittered backoff (the retrying transport)

Durations are `int64` nanosecond counts.  `rand.Int63n(n)` panics when
`n ≤ 0` and otherwise returns a uniform sample in `[0, n)`; the sample is
passed in explicitly, and the panic is the `none` outcome. -/

/-- Go `int64` division: truncation toward zero. -/
def goDiv (a b : Int) : Int := Int.tdiv a b

/-- `jitter(duration, divisor)` = `rand.Int63n(int64(duration)/divisor) +
int64(duration)`, with the random sample `r` passed in; `none` models the
`rand.Int63n` panic on a non-positive bound. -/
def jitter (duration : Int) (divisor : Int) (r : Int) : Option Int :=
  if goDiv duration divisor ≤ 0 then none
  else some (r + duration)

/-- Modelled from the spec: `rhttp.DefaultBackoff` (external library)
honors a parseable `Retry-After` — clamped to `[minWait, maxWait]` — and
otherwise takes `min(maxWait, minWait · 2^attempt)`. -/
def defaultBackoff (minWait maxWait : Int) (attemptNum : Nat)
    (retryAfter : Option Int) : Int :=
  match retryAfter with
  | some s => max minWait (min maxWait s)
  | none => min maxWait (minWait * 2 ^ attemptNum)

/-- `backoffStrategy`: the default backoff delay, jittered with
divisor 8. -/
def backoffStrategy (minWait maxWait : Int) (attemptNum : Nat)
    (retryAfter : Option Int) (r : Int) : Option Int :=
  jitter (defaultBackoff minWait maxWait attemptNum retryAfter) 8 r

/-- C7 counterexample: with `minWait = 1` ns the default backoff yields the
base delay `d = 1 > 0`, yet no jittered delay lies in `[d, d + d/8)`:
`jitter` calls `rand.Int63n(1/8) = rand.Int63n(0)`, which panics, and the
integer interval `[1, 1 + 1/8) = [1, 1)` is empty anyway. -/
theorem c7_jitter_small_delay_panics :
    defaultBackoff 1 30000000000 0 none = 1 ∧
    (0 : Int) < 1 ∧
    backoffStrategy 1 30000000000 0 none 0 = none ∧
    ¬∃ x : Int, backoffStrategy 1 30000000000 0 none 0 = some x ∧
      1 ≤ x ∧ x < 1 + goDiv 1 8 := by
  refine ⟨rfl, by decide, rfl, ?_⟩
  rintro ⟨x, hx, -, -⟩
  rw [show backoffStrategy 1 30000000000 0 none 0 = none from rfl] at hx
  cases hx

/-- C7 (amended): whenever the base delay `d` of the default backoff
computation satisfies `d/8 ≥ 1` (that is `d ≥ 8` ns), the jittered delay
exists and lies in `[d, d + d/8)`; for `0 < d < 8` the code panics in
`rand.Int63n` instead. -/
theorem c7_backoff_jitter_range (minWait maxWait : Int) (attemptNum : Nat)
    (retryAfter : Option Int) (r : Int)
    (hd : 8 ≤ defaultBackoff minWait maxWait attemptNum retryAfter)
    (hr0 : 0 ≤ r)
    (hrlt : r < goDiv (defaultBackoff minWait maxWait attemptNum retryAfter) 8) :
    backoffStrategy minWait maxWait attemptNum retryAfter r =
      some (r + defaultBackoff minWait maxWait attemptNum retryAfter) ∧
    defaultBackoff minWait maxWait attemptNum retryAfter ≤
      r + defaultBackoff minWait maxWait attemptNum retryAfter ∧
    r + defaultBackoff minWait maxWait attemptNum retryAfter <
      defaultBackoff minWait maxWait attemptNum retryAfter +
        goDiv (defaultBackoff minWait maxWait attemptNum retryAfter) 8 := by
  have hdiv : goDiv (defaultBackoff minWait maxWait attemptNum retryAfter) 8 =
      defaultBackoff minWait maxWait attemptNum retryAfter / 8 :=
    Int.tdiv_eq_ediv (by omega) (by omega)
  rw [hdiv] at hrlt ⊢
  refine ⟨?_, by omega, by omega⟩
  unfold backoffStrategy jitter
  rw [hdiv]
  have : ¬(defaultBackoff minWait maxWait attemptNum retryAfter / 8 ≤ 0) := by
    omega
  simp [this]

/-- C7 witness: the amended hypotheses hold at `minWait = 8` ns, attempt 0,
no `Retry-After`, sample 0, and the jittered delay is the base delay. -/
theorem c7_backoff_jitter_range_witness :
    backoffStrategy 8 30000000000 0 none 0 =
      some (0 + defaultBackoff 8 30000000000 0 none) :=
  (c7_backoff_jitter_range 8 30000000000 0 none 0 (by decide) (by decide)
    (by decide)).1

/-! ## Registry host resolution

Two resolvers produce the ordered host list for a reference:
`RegistryManager.AsRegistryHosts` and, in service/resolver/registry.go,
`RegistryManager.ConfigureRegistries`.  `docker.MatchLocalhost` is
external and passed in as a predicate; the per-host mirror table stands
for `rm.registryConfig.Host`.  The `sync.Map` memoization, and the
per-mirror `AuthClient` construction around the chosen retryable client,
are elided: what is modelled is which retryable client backs each host.
Timeouts are `int64` nanosecond counts. -/

/-- `docker.HostCapability`. -/
inductive HostCapability where
  | pull
  | resolve
  | push
deriving DecidableEq

/-- Which retryable client a `RegistryHost` carries: the manager's shared
global client, a derived clone sharing the global transport with its own
request timeout, or a nil `*http.Client` that was never assigned. -/
inductive HostClient where
  | global
  | derivedShared (timeoutNanos : Int)
  | nilClient
deriving DecidableEq

/-- A mirror entry of the resolver configuration. -/
structure MirrorConfig where
  host : String
  insecure : Bool
  requestTimeoutSec : Int
deriving DecidableEq

/-- `docker.RegistryHost`, reduced to the fields the resolvers set. -/
structure RegistryHost where
  client : HostClient
  host : String
  scheme : String
  path : String
  capabilities : List HostCapability
deriving DecidableEq

/-- An image reference: its full string (the cache key) and its
hostname. -/
structure RefSpec where
  refString : String
  hostname : String
deriving DecidableEq

/-- `RegistryManager.AsRegistryHosts`: for each configured mirror of the
reference's hostname, in order, pick the scheme by the localhost/insecure
rule and the client by `requestTimeoutSec` — `0` keeps `rm.retryClient`
itself, a non-zero value clones it (`CloneRetryableClient`, transport
re-used so the global connection pool is shared) with timeout `0`
(unlimited) when negative and `sec` seconds when positive — then append
the canonical host (`docker.io` rewritten to `registry-1.docker.io`) with
the shared global client; every host gets path `/v2` and the pull and
resolve capabilities. -/
def asRegistryHosts (isLocalhost : String → Bool)
    (hostConfigMirrors : String → Option (List MirrorConfig))
    (ref : RefSpec) : List RegistryHost :=
  let host := ref.hostname
  let mirrorHosts : List RegistryHost :=
    match hostConfigMirrors host with
    | none => []
    | some mirrors =>
      mirrors.map fun (mirror : MirrorConfig) =>
        { client :=
            if mirror.requestTimeoutSec ≠ 0 then
              .derivedShared
                (if mirror.requestTimeoutSec < 0 then 0
                 else mirror.requestTimeoutSec * 1000000000)
            else .global
          host := mirror.host
          scheme :=
            if isLocalhost mirror.host || mirror.insecure then "http"
            else "https"
          path := "/v2"
          capabilities := [.pull, .resolve] }
  mirrorHosts ++
    [{ client := .global
       host := if host = "docker.io" then "registry-1.docker.io" else host
       scheme := "https", path := "/v2", capabilities := [.pull, .resolve] }]

/-- `RegistryManager.ConfigureRegistries` (service/resolver/registry.go):
the `docker.io` rewrite happens before the mirror lookup; each mirror's
`var client *http.Client` is assigned only when `requestTimeoutSec > 0`
(the manager's `httpConfig.RequestTimeoutMsec` is set to `sec · 1000` and
a clone of the global auth client is derived from it), so a mirror with a
zero or negative timeout keeps the nil client; the canonical host with
the shared global client is appended last. -/
def configureRegistries (isLocalhost : String → Bool)
    (hostConfigMirrors : String → Option (List MirrorConfig))
    (host0 : String) : List RegistryHost :=
  let host := if host0 = "docker.io" then "registry-1.docker.io" else host0
  let mirrorHosts : List RegistryHost :=
    match hostConfigMirrors host with
    | none => []
    | some mirrors =>
      mirrors.map fun (mirror : MirrorConfig) =>
        { client :=
            if mirror.requestTimeoutSec > 0 then
              .derivedShared (mirror.requestTimeoutSec * 1000 * 1000000)
            else .nilClient
          host := mirror.host
          scheme :=
            if isLocalhost mirror.host || mirror.insecure then "http"
            else "https"
          path := "/v2"
          capabilities := [.pull, .resolve] }
  mirrorHosts ++
    [{ client := .global, host := host, scheme := "https", path := "/v2",
       capabilities := [.pull, .resolve] }]

/-- The claim's `requestTimeoutSec` semantics: `0` inherits the shared
global client, negative derives an unlimited-timeout client, positive
derives one with that many seconds. -/
def claimMirrorClient (sec : Int) : HostClient :=
  if sec = 0 then .global
  else if sec < 0 then .derivedShared 0
  else .derivedShared (sec * 1000000000)

theorem mirrorClient_eq_claim (sec : Int) :
    (if sec ≠ 0 then
      HostClient.derivedShared (if sec < 0 then 0 else sec * 1000000000)
     else .global) = claimMirrorClient sec := by
  unfold claimMirrorClient
  by_cases h0 : sec = 0
  · simp [h0]
  · by_cases hneg : sec < 0 <;> simp [h0, hneg]

/-- The C8 mirror with `requestTimeoutSec = 0` on which
`ConfigureRegistries` diverges from the spec. -/
def c8ZeroMirror : MirrorConfig :=
  { host := "mirror.example.com", insecure := false, requestTimeoutSec := 0 }

/-- The C8 mirror table: `example.com` has the one zero-timeout mirror. -/
def c8HostConfig : String → Option (List MirrorConfig) :=
  fun h => if h = "example.com" then some [c8ZeroMirror] else none

/-- No host matches the localhost patterns. -/
def c8NoLocalhost : String → Bool := fun _ => false

/-- C8: `AsRegistryHosts` honors the claim's `requestTimeoutSec`
semantics — the returned list is the mirrors in configuration order, each
with the claim's client, scheme by the localhost/insecure rule, path
`/v2` and pull+resolve, followed by the canonical host (docker.io
rewritten) on the shared global client.  `ConfigureRegistries`, by
contrast, leaves the client of a zero-timeout mirror nil instead of
inheriting the global client: the bug the failing input exhibits. -/
theorem c8_registry_hosts_timeouts (isLocalhost : String → Bool)
    (hostConfigMirrors : String → Option (List MirrorConfig)) (ref : RefSpec)
    (mirrors : List MirrorConfig)
    (hm : hostConfigMirrors ref.hostname = some mirrors) :
    asRegistryHosts isLocalhost hostConfigMirrors ref =
      (mirrors.map fun mirror =>
        { client := claimMirrorClient mirror.requestTimeoutSec
          host := mirror.host
          scheme :=
            if isLocalhost mirror.host || mirror.insecure then "http"
            else "https"
          path := "/v2"
          capabilities := [.pull, .resolve] }) ++
      [{ client := .global
         host :=
           if ref.hostname = "docker.io" then "registry-1.docker.io"
           else ref.hostname
         scheme := "https", path := "/v2",
         capabilities := [.pull, .resolve] }] ∧
    configureRegistries c8NoLocalhost c8HostConfig "example.com" =
      [{ client := .nilClient, host := "mirror.example.com",
         scheme := "https", path := "/v2",
         capabilities := [.pull, .resolve] },
       { client := .global, host := "example.com", scheme := "https",
         path := "/v2", capabilities := [.pull, .resolve] }] := by
  refine ⟨?_, rfl⟩
  simp only [asRegistryHosts, hm]
  congr 1
  clear hm
  induction mirrors with
  | nil => rfl
  | cons m t ih =>
    simp only [List.map_cons, ih, mirrorClient_eq_claim]

/-- C8 witness: the mirror-table hypothesis holds at the concrete
configuration, and there `ConfigureRegistries` hands the zero-timeout
mirror a nil client. -/
theorem c8_registry_hosts_timeouts_witness :
    configureRegistries c8NoLocalhost c8HostConfig "example.com" =
      [{ client := .nilClient, host := "mirror.example.com",
         scheme := "https", path := "/v2",
         capabilities := [.pull, .resolve] },
       { client := .global, host := "example.com", scheme := "https",
         path := "/v2", capabilities := [.pull, .resolve] }] :=
  (c8_registry_hosts_timeouts c8NoLocalhost c8HostConfig
    ⟨"example.com/app:latest", "example.com"⟩ [c8ZeroMirror] rfl).2
